import Mathlib

/-!
Verification development for the gmail-automation repository.

Each Python module that the checked properties touch is shallowly embedded
as Lean definitions: pure logic becomes Lean functions, database and remote
API effects become explicit state passing, remote calls are recorded in an
explicit trace, and raised exceptions become error values.
-/

namespace GmailAuto

/-! ## src/database.py — history cursor store

MongoDB collection of records {date, historyId, userId}. We model the
collection as a list with the newest record first (insert_one conses a
record stamped with the current clock value, and the clock strictly
increases between inserts, so find_one with sort date descending is the
first list entry matching the user). The source stores historyId as a
string and compares it with int(...); we model the sequence number
directly as a Nat. -/

structure HistoryRecord where
  date : Nat
  historyId : Nat
  userId : String
  deriving DecidableEq, Repr

/-- The history collection, newest record first. -/
abbrev HistoryStore := List HistoryRecord

/-- Embeds database.get_last_history_id: find_one sorted by date
descending, returning the historyId field when a record exists. -/
def get_last_history_id (store : HistoryStore) (userId : String) : Option Nat :=
  (store.find? (fun r => r.userId = userId)).map (fun r => r.historyId)

/-- Embeds database.insert_last_history_id: insert_one of a record with
the current time, the historyId and the userId. -/
def insert_last_history_id (store : HistoryStore) (userId : String)
    (historyId : Nat) (now : Nat) : HistoryStore :=
  { date := now, historyId := historyId, userId := userId } :: store

/-- Embeds database.update_last_history_id: reads the previous cursor,
then inserts the new record, returning the previous cursor. -/
def update_last_history_id (store : HistoryStore) (userId : String)
    (historyId : Nat) (now : Nat) : Option Nat × HistoryStore :=
  (get_last_history_id store userId,
   insert_last_history_id store userId historyId now)

/-- The per-user persisted cursor records in insertion order
(oldest first), as sequence numbers. -/
def recordsInOrder (store : HistoryStore) (userId : String) : List Nat :=
  ((store.filter (fun r => r.userId = userId)).map (fun r => r.historyId)).reverse

/-! ## src/pubsub.py — push notification consumer -/

/-- One entry of the Gmail history-since-cursor response. The source
checks membership of the key "messagesAdded" and reads
history_item["messages"][0]["id"]; we keep the flag and the message id
list. -/
structure HistoryItem where
  id : Nat
  hasMessagesAdded : Bool
  messages : List String
  deriving DecidableEq, Repr

/-- Message ids the callback fetches and forwards in the non-duplicate
branch: for every history item that carries messagesAdded and whose id
equals the notification sequence number, the first listed message id. -/
def extractNewMessageIds (history : List HistoryItem) (notifId : Nat) : List String :=
  (history.filter (fun it => it.hasMessagesAdded && it.id = notifId)).filterMap
    (fun it => it.messages.head?)

structure CallbackResult where
  err : Option String
  emitted : List String
  acked : Bool
  store : HistoryStore
  deriving DecidableEq

/-- Embeds pubsub.new_message_callback. The source, in order:
calls database.update_last_history_id (which reads the stored cursor and
then unconditionally inserts a record with the notification historyId);
raises if no previous cursor existed; acknowledges and returns when the
previous cursor is >= the notification sequence number; otherwise walks
the history-since-cursor response (the remote response is passed in as
`history`), fetching the first message id of each matching entry, and
acknowledges. The collection user is hardcoded to "me" in the source. -/
def new_message_callback (store : HistoryStore) (now : Nat)
    (notifId : Nat) (history : List HistoryItem) : CallbackResult :=
  match update_last_history_id store "me" notifId now with
  | (none, store1) =>
      { err := some "Last historyId not found", emitted := [], acked := false,
        store := store1 }
  | (some last, store1) =>
      if last ≥ notifId then
        { err := none, emitted := [], acked := true, store := store1 }
      else
        { err := none, emitted := extractNewMessageIds history notifId,
          acked := true, store := store1 }

/-- Drives the consumer over a sequence of notifications (each a
sequence number together with the provider's history response for it),
threading the persisted store and the clock. -/
def runNotifications (store : HistoryStore) (now : Nat) :
    List (Nat × List HistoryItem) → HistoryStore
  | [] => store
  | (n, h) :: rest =>
      runNotifications (new_message_callback store now n h).store (now + 1) rest

/-! ## Theorems for C1 and C2 -/

/-- Claim C1, as stated, is false: on a duplicate notification the
consumer still appends a record to the cursor store. Concretely, with
stored cursor 100 for user "me" and a notification with sequence
number 90, the consumer emits nothing and acknowledges, yet the
persisted store gains a record (it is no longer equal to the prior
store). -/
theorem c1_counterexample :
    (new_message_callback [{ date := 0, historyId := 100, userId := "me" }] 1 90 []).emitted
        = [] ∧
    (new_message_callback [{ date := 0, historyId := 100, userId := "me" }] 1 90 []).acked
        = true ∧
    ¬ (new_message_callback [{ date := 0, historyId := 100, userId := "me" }] 1 90 []).store
        = [{ date := 0, historyId := 100, userId := "me" }] := by
  decide

/-- Claim C1 (amended): for every notification whose sequence number is
at most the currently stored cursor for "me", the consumer emits zero
new message ids and acknowledges, but the persisted store is changed by
exactly one appended record carrying the notification's sequence number
(the duplicate check runs against the record preceding the insert). -/
theorem c1_duplicate_guard (store : HistoryStore) (now notifId c : Nat)
    (history : List HistoryItem)
    (hcur : get_last_history_id store "me" = some c)
    (hle : notifId ≤ c) :
    new_message_callback store now notifId history =
      { err := none, emitted := [], acked := true,
        store := { date := now, historyId := notifId, userId := "me" } :: store } := by
  unfold new_message_callback update_last_history_id
  rw [hcur]
  simp [insert_last_history_id, hle]

theorem c1_duplicate_guard_witness :
    new_message_callback [{ date := 0, historyId := 100, userId := "me" }] 1 90 [] =
      { err := none, emitted := [], acked := true,
        store := { date := 1, historyId := 90, userId := "me" } ::
          [{ date := 0, historyId := 100, userId := "me" }] } :=
  c1_duplicate_guard [{ date := 0, historyId := 100, userId := "me" }] 1 90 100 []
    (by decide) (by decide)

/-- Claim C2, as stated, is false: starting from a store holding cursor
100 for "me", processing a single out-of-order notification with
sequence number 90 leaves the persisted records for "me", in insertion
order, equal to [100, 90], which is not non-decreasing. -/
theorem c2_counterexample :
    recordsInOrder
        (runNotifications [{ date := 0, historyId := 100, userId := "me" }] 1 [(90, [])])
        "me" = [100, 90] ∧
    ¬ (recordsInOrder
        (runNotifications [{ date := 0, historyId := 100, userId := "me" }] 1 [(90, [])])
        "me").Chain' (· ≤ ·) := by
  have h : recordsInOrder
      (runNotifications [{ date := 0, historyId := 100, userId := "me" }] 1 [(90, [])])
      "me" = [100, 90] := by decide
  refine ⟨h, ?_⟩
  rw [h]
  simp [List.chain'_cons]

/-- Every callback invocation appends exactly one record for "me",
whatever branch it takes. -/
theorem callback_store_eq (store : HistoryStore) (now notifId : Nat)
    (history : List HistoryItem) :
    (new_message_callback store now notifId history).store =
      { date := now, historyId := notifId, userId := "me" } :: store := by
  unfold new_message_callback update_last_history_id
  cases h : get_last_history_id store "me" with
  | none => simp [insert_last_history_id]
  | some c =>
      by_cases hc : c ≥ notifId <;> simp [insert_last_history_id, hc]

/-- Claim C2 (amended): the consumer appends one record per received
notification, carrying that notification's sequence number, so the
persisted cursor records for "me" in insertion order equal the prior
records followed by the notification sequence numbers in arrival order.
They are therefore non-decreasing only when the notifications arrive in
non-decreasing order; out-of-order arrival produces a decreasing pair. -/
theorem c2_records_are_arrival_order (store : HistoryStore) (now : Nat)
    (notifs : List (Nat × List HistoryItem)) :
    recordsInOrder (runNotifications store now notifs) "me" =
      recordsInOrder store "me" ++ notifs.map (fun p => p.1) := by
  induction notifs generalizing store now with
  | nil => simp [runNotifications]
  | cons p rest ih =>
      obtain ⟨n, h⟩ := p
      show recordsInOrder
          (runNotifications (new_message_callback store now n h).store (now + 1) rest) "me" = _
      rw [ih, callback_store_eq]
      simp [recordsInOrder]

/-! ## src/gmail.py — GmailClassifier paginated search

GmailClassifier._get_raw_messages drives the list endpoint: it builds
the first request, then in a loop executes the current request, extends
the accumulator with res.get("messages", []), and asks list_next for the
next request, stopping when list_next yields none. We model the remote
result as the sequence of pages the provider would serve (each page the
list of message ids in its response; a page with no "messages" key is
the empty list), and return the accumulated ids together with the
number of executed list calls. -/

/-- Embeds the while loop of GmailClassifier._get_raw_messages over the
remaining pages: first component the accumulated message ids, second
the number of list-endpoint executions. -/
def get_raw_messages : List (List String) → List String × Nat
  | [] => ([], 0)
  | page :: rest =>
      let r := get_raw_messages rest
      (page ++ r.1, r.2 + 1)

/-- Claim C6: paginated search executes the list endpoint once per page,
returns the concatenation of all pages (no page skipped, nothing else
included), has no duplicates whenever the provider pages are internally
duplicate-free and pairwise disjoint, and returns the empty sequence
(rather than an error) for a zero-match query, whose provider response
is a single page with no message entries. -/
theorem c6_pagination_complete (pages : List (List String))
    (hnd : ∀ p ∈ pages, p.Nodup)
    (hdisj : pages.Pairwise List.Disjoint) :
    (get_raw_messages pages).1 = pages.flatten ∧
    (get_raw_messages pages).2 = pages.length ∧
    (get_raw_messages pages).1.Nodup ∧
    get_raw_messages [([] : List String)] = ([], 1) := by
  have hjoin : ∀ ps : List (List String), (get_raw_messages ps).1 = ps.flatten := by
    intro ps
    induction ps with
    | nil => rfl
    | cons p rest ih => simp [get_raw_messages, ih]
  have hlen : ∀ ps : List (List String), (get_raw_messages ps).2 = ps.length := by
    intro ps
    induction ps with
    | nil => rfl
    | cons p rest ih => simp [get_raw_messages, ih]
  refine ⟨hjoin pages, hlen pages, ?_, rfl⟩
  rw [hjoin pages]
  exact List.nodup_flatten.mpr ⟨hnd, hdisj⟩

theorem c6_pagination_complete_witness :
    (get_raw_messages [["a", "b"], ["c"]]).1 = [["a", "b"], ["c"]].flatten ∧
    (get_raw_messages [["a", "b"], ["c"]]).2 = [["a", "b"], ["c"]].length ∧
    (get_raw_messages [["a", "b"], ["c"]]).1.Nodup ∧
    get_raw_messages [([] : List String)] = ([], 1) :=
  c6_pagination_complete [["a", "b"], ["c"]] (by decide)
    (by simp [List.pairwise_cons, List.disjoint_left])

/-! ## src/main.py — run_classfiers (rule scheduler)

The scheduler iterates rules sequentially. Per rule: look up its
registration by name (creating one with lastExecution none and
deprecated false when missing), skip it when flagged deprecated,
otherwise call classifier.classify — a synchronous call that searches,
fetches and runs the handler on every matched message before
returning — and only then update_one the registration with
lastExecution set to the current time. We record the observable order
of effects as an event trace: the dispatch of the classify call, its
return (all per-message handling done), and the timestamp write. -/

structure Rule where
  name : String
  query : String
  deriving DecidableEq, Repr

structure Registration where
  name : String
  query : String
  lastExecution : Option Nat
  deprecated : Bool
  deprecatedSince : Option Nat
  deriving DecidableEq, Repr

abbrev RuleDB := List Registration

inductive SchedEvent where
  | classifyDispatched (name : String)
  | classifyReturned (name : String)
  | lastRunWritten (name : String)
  deriving DecidableEq, Repr

/-- update_one with $set lastExecution = now on the registration with
the given name. -/
def setLastExecution (db : RuleDB) (name : String) (now : Nat) : RuleDB :=
  db.map (fun reg =>
    if reg.name = name then { reg with lastExecution := some now } else reg)

/-- find_one by name, inserting a fresh registration (lastExecution
none, deprecated false) when absent, as the loop head of
main.run_classfiers does. -/
def findOrCreate (db : RuleDB) (r : Rule) : RuleDB × Registration :=
  match db.find? (fun reg => reg.name = r.name) with
  | some reg => (db, reg)
  | none =>
      (db ++ [{ name := r.name, query := r.query, lastExecution := none,
                deprecated := false, deprecatedSince := none }],
       { name := r.name, query := r.query, lastExecution := none,
         deprecated := false, deprecatedSince := none })

/-- Embeds main.run_classfiers: the sequential for-loop over rules with
find-or-create of the registration, the deprecated skip, the
synchronous classify call and the subsequent lastExecution write. -/
def run_classfiers (db : RuleDB) (now : Nat) : List Rule → RuleDB × List SchedEvent
  | [] => (db, [])
  | r :: rest =>
      let fc := findOrCreate db r
      if fc.2.deprecated then
        run_classfiers fc.1 now rest
      else
        let res := run_classfiers (setLastExecution fc.1 r.name now) now rest
        (res.1,
         SchedEvent.classifyDispatched r.name :: SchedEvent.classifyReturned r.name ::
           SchedEvent.lastRunWritten r.name :: res.2)

/-- Claim C8, as stated, is false: for the rule "Sender" (not
deprecated, freshly registered), the scheduler's event trace places the
timestamp write strictly after the classify call has returned — the
trace is [dispatched, returned, written], whereas the claim requires a
write before the return. Concretely there is no decomposition of the
trace with the write occurring before the return event. -/
theorem c8_counterexample :
    (run_classfiers [] 5 [{ name := "Sender", query := "from:billing@x.com" }]).2 =
      [SchedEvent.classifyDispatched "Sender", SchedEvent.classifyReturned "Sender",
       SchedEvent.lastRunWritten "Sender"] ∧
    ¬ ((run_classfiers [] 5 [{ name := "Sender", query := "from:billing@x.com" }]).2.findIdx
        (· = SchedEvent.lastRunWritten "Sender") <
      (run_classfiers [] 5 [{ name := "Sender", query := "from:billing@x.com" }]).2.findIdx
        (· = SchedEvent.classifyReturned "Sender")) := by
  constructor
  · decide
  · decide

/-- Claim C8 (amended): the scheduler writes a rule's persisted
last-run timestamp only after that rule's classify call has returned
(the run is synchronous, so the pipeline has completed): every
lastRunWritten event in the trace is preceded by a classifyReturned
event for the same rule name, with the write occurring in the suffix
after that return. -/
theorem c8_write_after_completion (db : RuleDB) (now : Nat) (rules : List Rule)
    (n : String) (hmem : SchedEvent.lastRunWritten n ∈ (run_classfiers db now rules).2) :
    ∃ l₁ l₂, (run_classfiers db now rules).2 = l₁ ++ SchedEvent.classifyReturned n :: l₂ ∧
      SchedEvent.lastRunWritten n ∈ l₂ := by
  induction rules generalizing db with
  | nil => simp [run_classfiers] at hmem
  | cons r rest ih =>
      rw [run_classfiers] at hmem ⊢
      by_cases hdep : (findOrCreate db r).2.deprecated
      · rw [if_pos hdep] at hmem ⊢
        exact ih _ hmem
      · rw [if_neg hdep] at hmem ⊢
        by_cases hn : n = r.name
        · subst hn
          exact ⟨[SchedEvent.classifyDispatched r.name], _, rfl, List.mem_cons_self _ _⟩
        · have hmem' : SchedEvent.lastRunWritten n ∈
              (run_classfiers (setLastExecution (findOrCreate db r).1 r.name now) now rest).2 := by
            simp only [List.mem_cons] at hmem
            rcases hmem with h | h | h | h
            · cases h
            · cases h
            · cases h; exact absurd rfl hn
            · exact h
          obtain ⟨l₁, l₂, heq, hin⟩ := ih _ hmem'
          refine ⟨SchedEvent.classifyDispatched r.name :: SchedEvent.classifyReturned r.name ::
              SchedEvent.lastRunWritten r.name :: l₁, l₂, ?_, hin⟩
          show _ :: _ :: _ :: (run_classfiers (setLastExecution (findOrCreate db r).1 r.name now) now rest).2 = _
          rw [heq]
          rfl

theorem c8_write_after_completion_witness :
    ∃ l₁ l₂,
      (run_classfiers [] 5 [{ name := "Sender", query := "from:billing@x.com" }]).2 =
        l₁ ++ SchedEvent.classifyReturned "Sender" :: l₂ ∧
      SchedEvent.lastRunWritten "Sender" ∈ l₂ :=
  c8_write_after_completion [] 5 [{ name := "Sender", query := "from:billing@x.com" }]
    "Sender" (by decide)

/-! ## src/handlers/messages.py — MessageHandler batched action pipeline

The handler accumulates stage closures in _execution_plan; execute runs
them in order against the shared message batch, each stage issuing one
coalesced remote batch call. We record remote calls in an explicit
trace. A googleapiclient batch request with zero added sub-requests
performs no HTTP round trip, so a stage over an empty batch records no
call. The remote mailbox state (labels and per-message data) is the
external Gmail server, modelled as `Remote`. -/

structure Part where
  filename : String
  attachmentId : Option String
  deriving DecidableEq, Repr

structure Payload where
  parts : Option (List Part)
  deriving DecidableEq, Repr

/-- Embeds gmail.GmailMessage: constructed by search from the id alone,
every other field absent until a stage fills it. -/
structure GmailMessage where
  id : String
  threadId : Option String := none
  historyId : Option String := none
  internalDate : Option String := none
  labelIds : Option (List String) := none
  payload : Option Payload := none
  snippet : Option String := none
  sizeEstimate : Option Nat := none
  raw : Option String := none
  deriving DecidableEq, Repr

/-- GmailMessage(raw_message["id"]) as built from a search result. -/
def mkSearchMessage (id : String) : GmailMessage := { id := id }

inductive Format where
  | minimal
  | full
  | raw
  | metadata
  deriving DecidableEq, Repr

/-- State of one message on the Gmail server. -/
structure RemoteMsg where
  labelIds : List String
  payload : Payload
  internalDate : String
  deriving DecidableEq, Repr

/-- State of the Gmail server: the ids of the labels that exist
remotely, and the per-message data keyed by message id. -/
structure Remote where
  labelIds : List String
  msgs : String → Option RemoteMsg

/-- Body of a users().messages().get response at the requested detail
level: minimal omits the payload, full includes it. -/
structure GetResponse where
  labelIds : List String
  payload : Option Payload
  internalDate : String
  deriving DecidableEq, Repr

def getResponse (fmt : Format) (rm : RemoteMsg) : GetResponse :=
  { labelIds := rm.labelIds,
    payload := if fmt = Format.full then some rm.payload else none,
    internalDate := rm.internalDate }

/-- Modelled from the spec: the stage callbacks invoke
message.update(**res), a GmailMessage method absent from src/. Per the
spec, a stage writes its batch-call results back onto each message
record via an update/merge operation and message records are enriched
in place, so update merges the fields present in the response into the
record, leaving absent fields untouched. -/
def GmailMessage.update (m : GmailMessage) (res : GetResponse) : GmailMessage :=
  { m with labelIds := some res.labelIds,
           internalDate := some res.internalDate,
           payload := match res.payload with
                      | some p => some p
                      | none => m.payload }

/-- One coalesced remote call. -/
inductive Call where
  | batchGet (fmt : Format) (ids : List String)
  | labelsList
  | batchModify (add remove ids : List String)
  | batchAttachmentGet (reqs : List (String × String))
  deriving DecidableEq, Repr

/-- Exceptions a stage can raise: a per-message HttpError re-raised by
a batch callback, the ValueError for a missing payload, and the
ValueError for an add-label that does not exist remotely. -/
inductive PipelineError where
  | httpError (id : String)
  | payloadNotLoaded (id : String)
  | labelNotFound (l : String)
  deriving DecidableEq, Repr

structure StageResult where
  remote : Remote
  msgs : List GmailMessage
  calls : List Call
  err : Option PipelineError

abbrev Stage := Remote → List GmailMessage → StageResult

/-- Processing of the batched get responses, in request order: each
callback merges the response into its message, and the first per-message
error propagates, leaving the remaining messages untouched. -/
def runBatchGet (r : Remote) (fmt : Format) :
    List GmailMessage → List GmailMessage × Option PipelineError
  | [] => ([], none)
  | m :: rest =>
      match r.msgs m.id with
      | none => (m :: rest, some (PipelineError.httpError m.id))
      | some rm =>
          let res := runBatchGet r fmt rest
          (m.update (getResponse fmt rm) :: res.1, res.2)

/-- Embeds the MessageHandler.get_content handler: one coalesced
batch-get at the requested format for the whole batch, results merged
back per message. -/
def getContentStage (fmt : Format) : Stage := fun r msgs =>
  let res := runBatchGet r fmt msgs
  { remote := r, msgs := res.1,
    calls := if msgs.isEmpty then [] else [Call.batchGet fmt (msgs.map (fun m => m.id))],
    err := res.2 }

/-- Result of a batchModify on one message per the provider contract:
removed labels disappear, added labels are present. -/
def modifyLabels (add remove ls : List String) : List String :=
  add ++ ls.filter (fun x => !(remove.contains x || add.contains x))

/-- Effect of the coalesced batchModify call on the server. -/
def applyBatchModify (r : Remote) (add remove ids : List String) : Remote :=
  { r with msgs := fun i =>
      if ids.contains i then
        (r.msgs i).map (fun rm => { rm with labelIds := modifyLabels add remove rm.labelIds })
      else r.msgs i }

/-- Embeds the MessageHandler.manage_labels handler: returns at once on
an empty batch; otherwise lists the remote labels, fails with ValueError
on the first add-label that does not exist remotely (remove-labels are
never checked), then issues one coalesced batchModify over the whole
batch. -/
def manageLabelsStage (add remove : List String) : Stage := fun r msgs =>
  if msgs.isEmpty then
    { remote := r, msgs := msgs, calls := [], err := none }
  else
    match add.find? (fun l => !(r.labelIds.contains l)) with
    | some l =>
        { remote := r, msgs := msgs, calls := [Call.labelsList],
          err := some (PipelineError.labelNotFound l) }
    | none =>
        { remote := applyBatchModify r add remove (msgs.map (fun m => m.id)),
          msgs := msgs,
          calls := [Call.labelsList, Call.batchModify add remove (msgs.map (fun m => m.id))],
          err := none }

/-- The loop body of MessageHandler.download_attachments before the
batch is executed: per message, raise ValueError when the payload was
never fetched or has no parts; otherwise collect one attachment-get
sub-request per part that carries an attachmentId and passes the
filter. -/
def collectAttachmentReqs (filt : Part → Bool) :
    List GmailMessage → Except PipelineError (List (String × String))
  | [] => Except.ok []
  | m :: rest =>
      match m.payload with
      | none => Except.error (PipelineError.payloadNotLoaded m.id)
      | some p =>
          match p.parts with
          | none => Except.error (PipelineError.payloadNotLoaded m.id)
          | some parts =>
              let reqs := parts.filterMap (fun pt =>
                match pt.attachmentId with
                | none => none
                | some aid => if filt pt then some (m.id, aid) else none)
              match collectAttachmentReqs filt rest with
              | Except.error e => Except.error e
              | Except.ok rs => Except.ok (reqs ++ rs)

/-- Embeds the MessageHandler.download_attachments handler: the
coalesced attachment-get batch executes only after the whole collection
loop succeeded, so a ValueError raised in the loop means no remote
attachment call was issued. -/
def downloadAttachmentsStage (filt : Part → Bool) : Stage := fun r msgs =>
  match collectAttachmentReqs filt msgs with
  | Except.error e => { remote := r, msgs := msgs, calls := [], err := some e }
  | Except.ok reqs =>
      { remote := r, msgs := msgs,
        calls := if reqs.isEmpty then [] else [Call.batchAttachmentGet reqs],
        err := none }

/-- The fluent builder: _execution_plan. -/
structure MessageHandler where
  plan : List Stage

def MessageHandler.new : MessageHandler := ⟨[]⟩

def MessageHandler.get_content (h : MessageHandler) (fmt : Format) : MessageHandler :=
  ⟨h.plan ++ [getContentStage fmt]⟩

def MessageHandler.download_attachments (h : MessageHandler) (filt : Part → Bool) :
    MessageHandler :=
  ⟨h.plan ++ [downloadAttachmentsStage filt]⟩

/-- manage_labels appends two handlers: the modify handler and
_refresh_messages, whose body is the get-content handler at format
minimal. -/
def MessageHandler.manage_labels (h : MessageHandler) (add remove : List String) :
    MessageHandler :=
  ⟨h.plan ++ [manageLabelsStage add remove, getContentStage Format.minimal]⟩

/-- Embeds MessageHandler.execute: run each stage in order on the shared
batch; an exception aborts the remaining stages, with the already-issued
calls and already-applied mutations kept. -/
def executePlan : List Stage → Remote → List GmailMessage → StageResult
  | [], r, msgs => { remote := r, msgs := msgs, calls := [], err := none }
  | s :: rest, r, msgs =>
      let res := s r msgs
      match res.err with
      | some e => { remote := res.remote, msgs := res.msgs, calls := res.calls, err := some e }
      | none =>
          let res2 := executePlan rest res.remote res.msgs
          { remote := res2.remote, msgs := res2.msgs,
            calls := res.calls ++ res2.calls, err := res2.err }

def MessageHandler.execute (h : MessageHandler) (r : Remote) (msgs : List GmailMessage) :
    StageResult :=
  executePlan h.plan r msgs

/-! ## Theorems for C9, C5, C4, C3 -/

/-- Claim C9: on an empty message batch the label-management stage (and
the refresh stage manage_labels appends after it) returns immediately:
no remote call is recorded, no validation of the add-label ids happens,
and no error is raised, for every add set — including ids that do not
exist remotely — and every remove set. -/
theorem c9_empty_batch_no_validation (r : Remote) (add remove : List String) :
    ((MessageHandler.new.manage_labels add remove).execute r []).calls = [] ∧
    ((MessageHandler.new.manage_labels add remove).execute r []).err = none ∧
    ((MessageHandler.new.manage_labels add remove).execute r []).msgs = [] := by
  refine ⟨rfl, rfl, rfl⟩

/-- Claim C5: on a non-empty batch the label-management stage lists the
remote labels and raises the named ValueError on the first add-label id
that does not exist remotely, before any batchModify call is recorded;
remove-label ids are never validated (the success case holds for every
remove set); and when every add-label exists, exactly one coalesced
batchModify over the ids of the whole batch is issued. -/
theorem c5_label_validation (r : Remote) (add remove : List String)
    (msgs : List GmailMessage) (hne : msgs ≠ []) :
    ((∃ l ∈ add, r.labelIds.contains l = false) →
      ∃ l₀, r.labelIds.contains l₀ = false ∧
        manageLabelsStage add remove r msgs =
          { remote := r, msgs := msgs, calls := [Call.labelsList],
            err := some (PipelineError.labelNotFound l₀) }) ∧
    ((∀ l ∈ add, r.labelIds.contains l = true) →
      manageLabelsStage add remove r msgs =
        { remote := applyBatchModify r add remove (msgs.map (fun m => m.id)),
          msgs := msgs,
          calls := [Call.labelsList,
                    Call.batchModify add remove (msgs.map (fun m => m.id))],
          err := none }) := by
  have hempty : msgs.isEmpty = false := by
    cases msgs with
    | nil => exact absurd rfl hne
    | cons m rest => rfl
  constructor
  · intro hex
    have hsome : (add.find? (fun l => !(r.labelIds.contains l))).isSome := by
      rw [List.find?_isSome]
      obtain ⟨l, hl, hfalse⟩ := hex
      exact ⟨l, hl, by simp only [hfalse, Bool.not_false]⟩
    obtain ⟨l₀, heq⟩ := Option.isSome_iff_exists.mp hsome
    have hl₀ : r.labelIds.contains l₀ = false := by
      have := List.find?_some heq
      simpa using this
    refine ⟨l₀, hl₀, ?_⟩
    unfold manageLabelsStage
    rw [hempty, heq]
    simp
  · intro hall
    have hnone : add.find? (fun l => !(r.labelIds.contains l)) = none := by
      rw [List.find?_eq_none]
      intro l hl
      simp only [hall l hl, Bool.not_true]
      exact Bool.false_ne_true
    unfold manageLabelsStage
    rw [hempty, hnone]
    simp

theorem c5_label_validation_witness :
    (manageLabelsStage ["L1"] ["ZZ"]
        { labelIds := ["L1"], msgs := fun _ => none } [mkSearchMessage "m1"] =
      { remote := applyBatchModify { labelIds := ["L1"], msgs := fun _ => none }
          ["L1"] ["ZZ"] ["m1"],
        msgs := [mkSearchMessage "m1"],
        calls := [Call.labelsList, Call.batchModify ["L1"] ["ZZ"] ["m1"]],
        err := none }) :=
  (c5_label_validation { labelIds := ["L1"], msgs := fun _ => none } ["L1"] ["ZZ"]
      [mkSearchMessage "m1"] (by simp)).2 (by decide)

/-- Claim C4: running a pipeline consisting of the attachment-download
stage with no prior content-fetch on a non-empty batch in which some
message has no fetched content raises the ValueError precondition error,
and the call trace is empty — in particular no remote attachment-get
call is issued before the error. -/
theorem c4_attachments_need_content (r : Remote) (filt : Part → Bool)
    (msgs : List GmailMessage) (_hne : msgs ≠ [])
    (hex : ∃ m ∈ msgs, m.payload = none) :
    ((MessageHandler.new.download_attachments filt).execute r msgs).err.isSome ∧
    ((MessageHandler.new.download_attachments filt).execute r msgs).calls = [] := by
  have hcol : ∃ e, collectAttachmentReqs filt msgs = Except.error e := by
    clear _hne
    induction msgs with
    | nil => simp at hex
    | cons m rest ih =>
        rcases hex with ⟨m', hm', hpay⟩
        rcases List.mem_cons.mp hm' with h | h
        · subst h
          exact ⟨PipelineError.payloadNotLoaded m'.id, by simp [collectAttachmentReqs, hpay]⟩
        · cases hp : m.payload with
          | none => exact ⟨PipelineError.payloadNotLoaded m.id, by simp [collectAttachmentReqs, hp]⟩
          | some p =>
              cases hparts : p.parts with
              | none =>
                  exact ⟨PipelineError.payloadNotLoaded m.id,
                    by simp [collectAttachmentReqs, hp, hparts]⟩
              | some parts =>
                  obtain ⟨e, he⟩ := ih ⟨m', h, hpay⟩
                  refine ⟨e, ?_⟩
                  simp [collectAttachmentReqs, hp, hparts, he]
  obtain ⟨e, he⟩ := hcol
  have hstage : (MessageHandler.new.download_attachments filt).execute r msgs =
      { remote := r, msgs := msgs, calls := [], err := some e } := by
    show executePlan [downloadAttachmentsStage filt] r msgs = _
    unfold executePlan downloadAttachmentsStage
    rw [he]
  rw [hstage]
  exact ⟨rfl, rfl⟩

theorem c4_attachments_need_content_witness :
    ((MessageHandler.new.download_attachments (fun _ => true)).execute
        { labelIds := [], msgs := fun _ => none } [mkSearchMessage "m1"]).err.isSome ∧
    ((MessageHandler.new.download_attachments (fun _ => true)).execute
        { labelIds := [], msgs := fun _ => none } [mkSearchMessage "m1"]).calls = [] :=
  c4_attachments_need_content { labelIds := [], msgs := fun _ => none } (fun _ => true)
    [mkSearchMessage "m1"] (by simp) ⟨mkSearchMessage "m1", by simp, rfl⟩

/-! ## Theorems for C3 -/

/-- Counts the coalesced batch content-get calls in a trace. -/
def countBatchGets (cs : List Call) : Nat :=
  cs.countP (fun c => match c with
    | Call.batchGet _ _ => true
    | _ => false)

/-- A concrete remote mailbox for the C3 scenario: label L1 exists and
messages m1, m2, m3 exist with empty label sets. -/
def c3Remote : Remote :=
  { labelIds := ["L1"],
    msgs := fun i =>
      if i = "m1" ∨ i = "m2" ∨ i = "m3" then
        some { labelIds := [], payload := { parts := some [] },
               internalDate := "1700000000000" }
      else none }

/-- Claim C3, as stated, is false in its call count: the pipeline
[content-fetch(full), label-add(L1)] on 3 matched ids issues two
batched content-get calls, not exactly one — manage_labels appends a
_refresh_messages handler that re-fetches the batch at format minimal
after the batchModify. -/
theorem c3_counterexample :
    ¬ countBatchGets (((MessageHandler.new.get_content Format.full).manage_labels
        ["L1"] []).execute c3Remote
        [mkSearchMessage "m1", mkSearchMessage "m2", mkSearchMessage "m3"]).calls = 1 := by
  decide

/-- Claim C3 (amended): for a rule matching exactly 3 message ids, the
pipeline [content-fetch(full), label-add(L1)] runs without error and its
remote trace is exactly: one batched full-format content-get covering
the 3 ids, one label-list validation call, one batchModify adding L1 to
the same 3 ids, and one batched minimal-format refresh get of the 3 ids;
afterwards every one of the 3 in-memory message records carries L1 in
its label set. -/
theorem c3_pipeline_effect (r : Remote) (a b c L1 : String) (rma rmb rmc : RemoteMsg)
    (ha : r.msgs a = some rma) (hb : r.msgs b = some rmb) (hc : r.msgs c = some rmc)
    (hL : r.labelIds.contains L1 = true) :
    (((MessageHandler.new.get_content Format.full).manage_labels [L1] []).execute r
        [mkSearchMessage a, mkSearchMessage b, mkSearchMessage c]).err = none ∧
    (((MessageHandler.new.get_content Format.full).manage_labels [L1] []).execute r
        [mkSearchMessage a, mkSearchMessage b, mkSearchMessage c]).calls =
      [Call.batchGet Format.full [a, b, c], Call.labelsList,
       Call.batchModify [L1] [] [a, b, c], Call.batchGet Format.minimal [a, b, c]] ∧
    ∀ m ∈ (((MessageHandler.new.get_content Format.full).manage_labels [L1] []).execute r
        [mkSearchMessage a, mkSearchMessage b, mkSearchMessage c]).msgs,
      ∃ ls, m.labelIds = some ls ∧ L1 ∈ ls := by
  have hca : List.contains [a, b, c] a = true := by simp
  have hcb : List.contains [a, b, c] b = true := by simp
  have hcc : List.contains [a, b, c] c = true := by simp
  have h1 : getContentStage Format.full r
      [mkSearchMessage a, mkSearchMessage b, mkSearchMessage c] =
      { remote := r,
        msgs := [(mkSearchMessage a).update (getResponse Format.full rma),
                 (mkSearchMessage b).update (getResponse Format.full rmb),
                 (mkSearchMessage c).update (getResponse Format.full rmc)],
        calls := [Call.batchGet Format.full [a, b, c]],
        err := none } := by
    simp [getContentStage, runBatchGet, mkSearchMessage, ha, hb, hc]
  have h2 : manageLabelsStage [L1] [] r
      [(mkSearchMessage a).update (getResponse Format.full rma),
       (mkSearchMessage b).update (getResponse Format.full rmb),
       (mkSearchMessage c).update (getResponse Format.full rmc)] =
      { remote := applyBatchModify r [L1] [] [a, b, c],
        msgs := [(mkSearchMessage a).update (getResponse Format.full rma),
                 (mkSearchMessage b).update (getResponse Format.full rmb),
                 (mkSearchMessage c).update (getResponse Format.full rmc)],
        calls := [Call.labelsList, Call.batchModify [L1] [] [a, b, c]],
        err := none } := by
    have hLmem : L1 ∈ r.labelIds := by simpa using hL
    simp [manageLabelsStage, List.find?, hLmem, GmailMessage.update, getResponse,
      mkSearchMessage]
  have hmod : ∀ x rmx, r.msgs x = some rmx → List.contains [a, b, c] x = true →
      (applyBatchModify r [L1] [] [a, b, c]).msgs x =
        some { rmx with labelIds := modifyLabels [L1] [] rmx.labelIds } := by
    intro x rmx hx hcx
    simp only [applyBatchModify, hcx]
    simp [hx]
  have h3 : getContentStage Format.minimal (applyBatchModify r [L1] [] [a, b, c])
      [(mkSearchMessage a).update (getResponse Format.full rma),
       (mkSearchMessage b).update (getResponse Format.full rmb),
       (mkSearchMessage c).update (getResponse Format.full rmc)] =
      { remote := applyBatchModify r [L1] [] [a, b, c],
        msgs := [((mkSearchMessage a).update (getResponse Format.full rma)).update
                   (getResponse Format.minimal
                     { rma with labelIds := modifyLabels [L1] [] rma.labelIds }),
                 ((mkSearchMessage b).update (getResponse Format.full rmb)).update
                   (getResponse Format.minimal
                     { rmb with labelIds := modifyLabels [L1] [] rmb.labelIds }),
                 ((mkSearchMessage c).update (getResponse Format.full rmc)).update
                   (getResponse Format.minimal
                     { rmc with labelIds := modifyLabels [L1] [] rmc.labelIds })],
        calls := [Call.batchGet Format.minimal [a, b, c]],
        err := none } := by
    simp [getContentStage, runBatchGet, mkSearchMessage, GmailMessage.update,
      getResponse, hmod a rma ha hca, hmod b rmb hb hcb, hmod c rmc hc hcc]
  have hplan : ((MessageHandler.new.get_content Format.full).manage_labels [L1] []).plan =
      [getContentStage Format.full, manageLabelsStage [L1] [],
       getContentStage Format.minimal] := by
    simp [MessageHandler.new, MessageHandler.get_content, MessageHandler.manage_labels]
  have hres : ((MessageHandler.new.get_content Format.full).manage_labels [L1] []).execute r
      [mkSearchMessage a, mkSearchMessage b, mkSearchMessage c] =
      executePlan [getContentStage Format.full, manageLabelsStage [L1] [],
        getContentStage Format.minimal] r
        [mkSearchMessage a, mkSearchMessage b, mkSearchMessage c] := by
    rw [MessageHandler.execute, hplan]
  rw [hres]
  simp only [executePlan, h1, h2, h3]
  refine ⟨by simp, by simp, ?_⟩
  intro m hm
  simp only [List.mem_cons, List.not_mem_nil, or_false] at hm
  rcases hm with h | h | h
  · subst h
    exact ⟨modifyLabels [L1] [] rma.labelIds,
      by simp [GmailMessage.update, getResponse], by simp [modifyLabels]⟩
  · subst h
    exact ⟨modifyLabels [L1] [] rmb.labelIds,
      by simp [GmailMessage.update, getResponse], by simp [modifyLabels]⟩
  · subst h
    exact ⟨modifyLabels [L1] [] rmc.labelIds,
      by simp [GmailMessage.update, getResponse], by simp [modifyLabels]⟩

theorem c3_pipeline_effect_witness :
    (((MessageHandler.new.get_content Format.full).manage_labels ["L1"] []).execute c3Remote
        [mkSearchMessage "m1", mkSearchMessage "m2", mkSearchMessage "m3"]).err = none ∧
    (((MessageHandler.new.get_content Format.full).manage_labels ["L1"] []).execute c3Remote
        [mkSearchMessage "m1", mkSearchMessage "m2", mkSearchMessage "m3"]).calls =
      [Call.batchGet Format.full ["m1", "m2", "m3"], Call.labelsList,
       Call.batchModify ["L1"] [] ["m1", "m2", "m3"],
       Call.batchGet Format.minimal ["m1", "m2", "m3"]] ∧
    ∀ m ∈ (((MessageHandler.new.get_content Format.full).manage_labels ["L1"] []).execute
        c3Remote [mkSearchMessage "m1", mkSearchMessage "m2", mkSearchMessage "m3"]).msgs,
      ∃ ls, m.labelIds = some ls ∧ "L1" ∈ ls :=
  c3_pipeline_effect c3Remote "m1" "m2" "m3" "L1"
    { labelIds := [], payload := { parts := some [] }, internalDate := "1700000000000" }
    { labelIds := [], payload := { parts := some [] }, internalDate := "1700000000000" }
    { labelIds := [], payload := { parts := some [] }, internalDate := "1700000000000" }
    (by decide) (by decide) (by decide) (by decide)

/-! ## src/handlers/attachments.py — attachment sinks

save_attachment_locally and write_attachment_on_cloud_storage both
compute `filename, extension = attachment['filename'].split('.')`: the
tuple unpacking raises ValueError unless the split yields exactly two
pieces, i.e. unless the filename contains exactly one dot. The local
filesystem and the cloud bucket are modelled as association lists from
path to byte content where a write conses (the newest entry shadows
older ones, as an unconditional write replaces the previous bytes). -/

/-- Python str.split on the dot character. -/
def splitDot : List Char → List (List Char)
  | [] => [[]]
  | ch :: rest =>
      if ch = '.' then [] :: splitDot rest
      else
        match splitDot rest with
        | [] => [[ch]]
        | g :: gs => (ch :: g) :: gs

theorem splitDot_ne_nil (l : List Char) : splitDot l ≠ [] := by
  induction l with
  | nil => simp [splitDot]
  | cons ch rest ih =>
      by_cases h : ch = '.'
      · simp [splitDot, h]
      · simp only [splitDot, if_neg h]
        cases hs : splitDot rest with
        | nil => exact absurd hs ih
        | cons g gs => simp

theorem splitDot_length (l : List Char) : (splitDot l).length = l.count '.' + 1 := by
  induction l with
  | nil => simp [splitDot]
  | cons ch rest ih =>
      by_cases h : ch = '.'
      · subst h
        simp [splitDot, ih, List.count_cons]
      · simp only [splitDot, if_neg h]
        cases hs : splitDot rest with
        | nil => exact absurd hs (splitDot_ne_nil rest)
        | cons g gs =>
            have hl : (g :: gs).length = rest.count '.' + 1 := by rw [← hs]; exact ih
            simp only [List.length_cons] at hl ⊢
            rw [List.count_cons]
            simp [h, hl]

/-- The tuple unpacking `filename, extension = ....split('.')`: defined
exactly when the split has two pieces. -/
def splitFilename (s : String) : Option (String × String) :=
  match splitDot s.toList with
  | [f, e] => some (String.mk f, String.mk e)
  | _ => none

theorem splitFilename_isSome_iff (s : String) :
    (splitFilename s).isSome = true ↔ s.toList.count '.' = 1 := by
  have hlen := splitDot_length s.toList
  unfold splitFilename
  cases hs : splitDot s.toList with
  | nil => exact absurd hs (splitDot_ne_nil _)
  | cons g gs =>
      cases gs with
      | nil =>
          rw [hs] at hlen
          simp at hlen ⊢
          omega
      | cons e gs' =>
          cases gs' with
          | nil =>
              rw [hs] at hlen
              simp at hlen ⊢
              omega
          | cons x xs =>
              rw [hs] at hlen
              simp at hlen ⊢
              omega

theorem splitFilename_eq_none (s : String) (hc : s.toList.count '.' ≠ 1) :
    splitFilename s = none := by
  cases hsp : splitFilename s with
  | none => rfl
  | some v =>
      exact absurd ((splitFilename_isSome_iff s).mp (by rw [hsp]; rfl)) hc

instance exceptDecEq {ε α : Type} [DecidableEq ε] [DecidableEq α] :
    DecidableEq (Except ε α) := fun x y =>
  match x, y with
  | Except.ok a, Except.ok b =>
      if h : a = b then isTrue (by rw [h])
      else isFalse (by intro hh; cases hh; exact h rfl)
  | Except.error a, Except.error b =>
      if h : a = b then isTrue (by rw [h])
      else isFalse (by intro hh; cases hh; exact h rfl)
  | Except.ok _, Except.error _ => isFalse (by intro hh; cases hh)
  | Except.error _, Except.ok _ => isFalse (by intro hh; cases hh)

abbrev Bytes := List Nat

/-- A filesystem or bucket: newest write first; a lookup sees the most
recent write to a path. -/
abbrev FileSystem := List (String × Bytes)

def lookupFile (fs : FileSystem) (p : String) : Option Bytes :=
  (fs.find? (fun e => e.1 = p)).map (fun e => e.2)

def writeFile (fs : FileSystem) (p : String) (d : Bytes) : FileSystem :=
  (p, d) :: fs

/-- The attachment dict produced by update_attachment: filename,
message id, the send date rendered by to_date_string, and the decoded
bytes. -/
structure Attachment where
  filename : String
  message_id : String
  dateString : String
  data : Bytes
  deriving DecidableEq, Repr

inductive SinkError where
  | unpackError
  | fileExistsError (p : String)
  | bucketNotFound
  | badPath (p : String)
  deriving DecidableEq, Repr

/-- Embeds attachments.save_attachment_locally: mkdir (not modelled,
directories are implicit in paths), the dot-split of the filename, the
date-prefixed target name, the existence check only when
fail_if_file_exists is set (the source default is False), then
write_bytes, which replaces existing content. -/
def save_attachment_locally (downloadsDir : String) (fs : FileSystem)
    (attachment : Attachment) (fail_if_file_exists : Bool) : Except SinkError FileSystem :=
  match splitFilename attachment.filename with
  | none => Except.error SinkError.unpackError
  | some (f, e) =>
      let path := downloadsDir ++ "/" ++ (attachment.dateString ++ "-" ++ f ++ "." ++ e)
      if (lookupFile fs path).isSome && fail_if_file_exists then
        Except.error (SinkError.fileExistsError path)
      else
        Except.ok (writeFile fs path attachment.data)

/-- Python str.endswith applied to the slash character. -/
def endsWithSlash (s : String) : Bool :=
  match s.data.getLast? with
  | some ch => ch = '/'
  | none => false

/-- Embeds attachments.write_attachment_on_cloud_storage: the bucket
existence check, the trailing-slash path check, the dot-split of the
filename, then blob.upload_from_string — with no existence check of the
target object. -/
def write_attachment_on_cloud_storage (bucketExists : Bool) (store : FileSystem)
    (attachment : Attachment) (path : String) : Except SinkError FileSystem :=
  if !bucketExists then Except.error SinkError.bucketNotFound
  else if endsWithSlash path then Except.error (SinkError.badPath path)
  else
    match splitFilename attachment.filename with
    | none => Except.error SinkError.unpackError
    | some (f, e) =>
        Except.ok (writeFile store
          (path ++ "/" ++ (attachment.dateString ++ "-" ++ f ++ "." ++ e))
          attachment.data)

/-! ## Theorems for C7 and C10 -/

/-- Claim C7, as stated, is false: neither sink refuses to overwrite by
default. Concretely, writing attachment a.pdf (bytes [1, 2]) dated
2024-01-01 to a cloud bucket already holding an object at
Faturas/2024-01-01-a.pdf succeeds and the path now yields the new bytes;
the local sink called with its default fail_if_file_exists = False on an
existing file likewise succeeds and replaces the visible content. -/
theorem c7_counterexample :
    write_attachment_on_cloud_storage true [("Faturas/2024-01-01-a.pdf", [9])]
        { filename := "a.pdf", message_id := "m1", dateString := "2024-01-01",
          data := [1, 2] } "Faturas" =
      Except.ok [("Faturas/2024-01-01-a.pdf", [1, 2]), ("Faturas/2024-01-01-a.pdf", [9])] ∧
    save_attachment_locally "d" [("d/2024-01-01-a.pdf", [9])]
        { filename := "a.pdf", message_id := "m1", dateString := "2024-01-01",
          data := [1, 2] } false =
      Except.ok [("d/2024-01-01-a.pdf", [1, 2]), ("d/2024-01-01-a.pdf", [9])] ∧
    lookupFile [("d/2024-01-01-a.pdf", [1, 2]), ("d/2024-01-01-a.pdf", [9])]
        "d/2024-01-01-a.pdf" = some [1, 2] := by
  decide

/-- Claim C7 (amended): the local sink checks existence before writing
only when fail_if_file_exists is set, failing with FileExistsError on an
existing target; with the source's default fail_if_file_exists = False
it overwrites silently; and the cloud sink checks only the bucket and
the path shape, never the target object, so it overwrites an existing
object unconditionally. -/
theorem c7_sink_overwrite_behavior (dir p : String) (fs : FileSystem)
    (att : Attachment) (f e : String)
    (hsplit : splitFilename att.filename = some (f, e))
    (hp : endsWithSlash p = false) :
    ((lookupFile fs (dir ++ "/" ++ (att.dateString ++ "-" ++ f ++ "." ++ e))).isSome →
      save_attachment_locally dir fs att true =
        Except.error (SinkError.fileExistsError
          (dir ++ "/" ++ (att.dateString ++ "-" ++ f ++ "." ++ e)))) ∧
    save_attachment_locally dir fs att false =
      Except.ok (writeFile fs (dir ++ "/" ++ (att.dateString ++ "-" ++ f ++ "." ++ e))
        att.data) ∧
    write_attachment_on_cloud_storage true fs att p =
      Except.ok (writeFile fs (p ++ "/" ++ (att.dateString ++ "-" ++ f ++ "." ++ e))
        att.data) := by
  refine ⟨?_, ?_, ?_⟩
  · intro hlook
    unfold save_attachment_locally
    rw [hsplit]
    simp [hlook]
  · unfold save_attachment_locally
    rw [hsplit]
    simp
  · unfold write_attachment_on_cloud_storage
    rw [hp, hsplit]
    simp

theorem c7_sink_overwrite_behavior_witness :
    ((lookupFile [] ("d" ++ "/" ++ ("2024-01-01" ++ "-" ++ "a" ++ "." ++ "pdf"))).isSome →
      save_attachment_locally "d" []
          { filename := "a.pdf", message_id := "m1", dateString := "2024-01-01",
            data := [1, 2] } true =
        Except.error (SinkError.fileExistsError
          ("d" ++ "/" ++ ("2024-01-01" ++ "-" ++ "a" ++ "." ++ "pdf")))) ∧
    save_attachment_locally "d" []
        { filename := "a.pdf", message_id := "m1", dateString := "2024-01-01",
          data := [1, 2] } false =
      Except.ok (writeFile [] ("d" ++ "/" ++ ("2024-01-01" ++ "-" ++ "a" ++ "." ++ "pdf"))
        [1, 2]) ∧
    write_attachment_on_cloud_storage true []
        { filename := "a.pdf", message_id := "m1", dateString := "2024-01-01",
          data := [1, 2] } "Faturas" =
      Except.ok (writeFile [] ("Faturas" ++ "/" ++ ("2024-01-01" ++ "-" ++ "a" ++ "." ++ "pdf"))
        [1, 2]) :=
  c7_sink_overwrite_behavior "d" "Faturas" []
    { filename := "a.pdf", message_id := "m1", dateString := "2024-01-01", data := [1, 2] }
    "a" "pdf" (by decide) (by decide)

/-- Claim C10: when the attachment filename does not contain exactly one
dot, both sinks raise the ValueError from tuple unpacking before writing
any bytes (the cloud sink after its bucket and path guards); and a sink
returning successfully implies the filename contained exactly one dot. -/
theorem c10_single_dot_filenames (dir p : String) (fs : FileSystem)
    (att : Attachment) (fail : Bool)
    (hp : endsWithSlash p = false) :
    (att.filename.toList.count '.' ≠ 1 →
      save_attachment_locally dir fs att fail = Except.error SinkError.unpackError ∧
      write_attachment_on_cloud_storage true fs att p =
        Except.error SinkError.unpackError) ∧
    (∀ fs', save_attachment_locally dir fs att fail = Except.ok fs' →
      att.filename.toList.count '.' = 1) ∧
    (∀ fs', write_attachment_on_cloud_storage true fs att p = Except.ok fs' →
      att.filename.toList.count '.' = 1) := by
  refine ⟨?_, ?_, ?_⟩
  · intro hc
    have hn := splitFilename_eq_none att.filename hc
    constructor
    · unfold save_attachment_locally
      rw [hn]
    · unfold write_attachment_on_cloud_storage
      rw [hp, hn]
      rfl
  · intro fs' hok
    cases hsp : splitFilename att.filename with
    | none =>
        unfold save_attachment_locally at hok
        rw [hsp] at hok
        cases hok
    | some v =>
        exact (splitFilename_isSome_iff att.filename).mp (by rw [hsp]; rfl)
  · intro fs' hok
    cases hsp : splitFilename att.filename with
    | none =>
        unfold write_attachment_on_cloud_storage at hok
        rw [hp, hsp] at hok
        cases hok
    | some v =>
        exact (splitFilename_isSome_iff att.filename).mp (by rw [hsp]; rfl)

theorem c10_single_dot_filenames_witness :
    (save_attachment_locally "d" []
        { filename := "archive.tar.gz", message_id := "m1", dateString := "2024-01-01",
          data := [1] } false = Except.error SinkError.unpackError ∧
      write_attachment_on_cloud_storage true []
        { filename := "archive.tar.gz", message_id := "m1", dateString := "2024-01-01",
          data := [1] } "x" = Except.error SinkError.unpackError) :=
  (c10_single_dot_filenames "d" "x" []
      { filename := "archive.tar.gz", message_id := "m1", dateString := "2024-01-01",
        data := [1] } false (by decide)).1 (by decide)

end GmailAuto
